import Mathlib

/-!
# Verification of the MBDataSyncProcess reconciliation engine

Shallow embedding of `src/MBPRoductSyncSample.go` (package `main`) and proofs
about the reconciliation/synchronization engine: the retry loop
(`executeWithRetry`), the persisted-store operations (`markAllRecordsAsDeleted`,
`productExists`, `insertProduct`, `updateProductStatus`), the per-item worker
(`worker`), the produce-and-publish step (`processItem`), the external-store
response handling (`uploadFile`, `deleteFile`), and the bounded worker pool of
`processXMLData`.

Modelling conventions:
* Prices are `float64` in Go, but the engine only stores them and compares them
  for equality (`price == item.Price`); they are modelled as `Int`, an abstract
  scalar with decidable equality.
* Effectful collaborator calls (HTTP delete/upload, page enrichment, local file
  writes) are recorded as events in an explicit trace; their outcomes are
  supplied by an environment `Env`, one field per fallible call site.
* A store mutation that goes through `executeWithRetry` is modelled at the
  worker level by its net outcome (success, or a surfaced `StoreError`), as
  decided by `Env`; the retry loop itself is modelled separately and exactly
  (`executeWithRetry` below).
* The `products` table schema (its `CREATE TABLE`) is not part of the source;
  the uniqueness behaviour of `insertProduct` is modelled from the spec, see
  its doc comment.
-/

namespace MBSync

/-- `maxWorkers` constant from the source: bound of the worker pool. -/
def maxWorkers : Nat := 5

/-- `maxRetries` constant from the source: attempt budget of `executeWithRetry`. -/
def maxRetries : Nat := 5

/-- One feed entry (`Item` in the source). Prices are modelled as `Int`
(see module comment). -/
structure Item where
  id : String
  title : String
  descriptionText : String
  price : Int
  link : String
  imageLink : String
  brand : String
  mpn : String
  gtin : String
  availability : String
  condition : String
  inventory : Int
deriving DecidableEq, Repr

/-- One persisted row (`Product` in the source): a record of the `products`
table with columns `unique_code`, `price`, `mpn`, `status`. -/
structure Product where
  uniqueCode : String
  price : Int
  mpn : String
  status : String
deriving DecidableEq, Repr

/-- The persisted store: the rows of the `products` table.  A list keeps the
multiset of rows observable, so the one-record-per-identifier invariant is a
provable property rather than a consequence of the representation. -/
abbrev Store := List Product

/-- The identifier column of the store, row by row. -/
def ids (s : Store) : List String := s.map Product.uniqueCode

/-- The store invariant: at most one row per identifier. -/
def UniqueIds (s : Store) : Prop := (ids s).Nodup

/-- `markAllRecordsAsDeleted`: `UPDATE products SET status = 'deleted'`. -/
def markAllRecordsAsDeleted (s : Store) : Store :=
  s.map fun r => { r with status := "deleted" }

/-- `productExists`: `SELECT price FROM products WHERE unique_code = ? LIMIT 1`,
returning whether a row exists and, if so, its price (the first matching row). -/
def productExists (s : Store) (uniqueCode : String) : Bool × Int :=
  match s.find? (fun r => r.uniqueCode == uniqueCode) with
  | some r => (true, r.price)
  | none => (false, 0)

/-! ## The retry loop (`executeWithRetry`)

The loop body `db.Exec` is abstracted by an outcome per attempt index:
successful, failed with a transient-contention signal (`SQLITE_BUSY` /
`SQLITE_LOCKED`), or failed with any other error. -/

/-- Outcome of one `db.Exec` attempt inside `executeWithRetry`. -/
inductive ExecOutcome
  | ok
  | busy
  | locked
  | failed
deriving DecidableEq, Repr

/-- The source's transient-contention test:
`sqliteErr.Code == sqlite3.ErrBusy || sqliteErr.Code == sqlite3.ErrLocked`. -/
def ExecOutcome.isTransient : ExecOutcome → Bool
  | .busy => true
  | .locked => true
  | _ => false

/-- Observable result of a run of `executeWithRetry`: whether it returned
`nil`, whether a returned error is the final "query failed after N retries"
wrap (budget exhausted) as opposed to an immediately surfaced error, how many
`db.Exec` attempts were made, and the `time.Sleep` backoff durations (in
milliseconds), in order. -/
structure RetryTrace where
  success : Bool
  exhausted : Bool
  attempts : Nat
  sleeps : List Nat
deriving DecidableEq, Repr

/-- The loop of `executeWithRetry`: `i` is the current attempt index, the
second argument the number of loop iterations left (`maxRetries - i`).
After a transient failure of attempt `i`, the loop sleeps `(i+1) * 100` ms
and retries; a non-transient error returns immediately. -/
def retryLoop (outcome : Nat → ExecOutcome) : Nat → Nat → RetryTrace
  | _, 0 => { success := false, exhausted := true, attempts := 0, sleeps := [] }
  | i, r + 1 =>
    match outcome i with
    | .ok => { success := true, exhausted := false, attempts := 1, sleeps := [] }
    | .busy =>
      let t := retryLoop outcome (i + 1) r
      { t with attempts := t.attempts + 1, sleeps := (i + 1) * 100 :: t.sleeps }
    | .locked =>
      let t := retryLoop outcome (i + 1) r
      { t with attempts := t.attempts + 1, sleeps := (i + 1) * 100 :: t.sleeps }
    | .failed => { success := false, exhausted := false, attempts := 1, sleeps := [] }

/-- `executeWithRetry`: `for i := 0; i < maxRetries; i++ { ... }`. -/
def executeWithRetry (outcome : Nat → ExecOutcome) : RetryTrace :=
  retryLoop outcome 0 maxRetries

theorem retryLoop_ok {outcome : Nat → ExecOutcome} {i : Nat} (r : Nat)
    (h : outcome i = .ok) :
    retryLoop outcome i (r + 1) =
      { success := true, exhausted := false, attempts := 1, sleeps := [] } := by
  simp [retryLoop, h]

theorem retryLoop_failed {outcome : Nat → ExecOutcome} {i : Nat} (r : Nat)
    (h : outcome i = .failed) :
    retryLoop outcome i (r + 1) =
      { success := false, exhausted := false, attempts := 1, sleeps := [] } := by
  simp [retryLoop, h]

theorem retryLoop_transient {outcome : Nat → ExecOutcome} {i : Nat} (r : Nat)
    (h : (outcome i).isTransient = true) :
    retryLoop outcome i (r + 1) =
      { retryLoop outcome (i + 1) r with
        attempts := (retryLoop outcome (i + 1) r).attempts + 1,
        sleeps := (i + 1) * 100 :: (retryLoop outcome (i + 1) r).sleeps } := by
  cases ho : outcome i <;> simp [ExecOutcome.isTransient, ho] at h ⊢ <;>
    simp [retryLoop, ho]

/-- If every attempt fails transiently, the budget is exhausted and the sleeps
were `(i+1)*100, (i+2)*100, ...`. -/
theorem retryLoop_all_transient (outcome : Nat → ExecOutcome) :
    ∀ r i, (∀ k, k < r → (outcome (i + k)).isTransient = true) →
      retryLoop outcome i r =
        { success := false, exhausted := true, attempts := r,
          sleeps := (List.range r).map (fun k => (i + k + 1) * 100) } := by
  intro r
  induction r with
  | zero => intro i _; simp [retryLoop]
  | succ r ih =>
    intro i h
    have h0 : (outcome i).isTransient = true := by
      have := h 0 (Nat.succ_pos r); simpa using this
    rw [retryLoop_transient r h0, ih (i + 1) (fun k hk => by
      have := h (k + 1) (Nat.succ_lt_succ hk)
      simpa [Nat.add_assoc, Nat.add_comm 1 k] using this)]
    simp [List.range_succ_eq_map, List.map_map, Function.comp]
    intro a _
    omega

/-- If the first `j` attempts fail transiently and attempt `j` succeeds, the
loop reports success after `j + 1` attempts with linearly increasing sleeps. -/
theorem retryLoop_transient_then_ok (outcome : Nat → ExecOutcome) :
    ∀ j i r, j < r → (∀ k, k < j → (outcome (i + k)).isTransient = true) →
      outcome (i + j) = .ok →
      retryLoop outcome i r =
        { success := true, exhausted := false, attempts := j + 1,
          sleeps := (List.range j).map (fun k => (i + k + 1) * 100) } := by
  intro j
  induction j with
  | zero =>
    intro i r hr _ hok
    obtain ⟨r', rfl⟩ := Nat.exists_eq_succ_of_ne_zero (Nat.pos_iff_ne_zero.mp hr)
    rw [retryLoop_ok r' (by simpa using hok)]
    simp
  | succ j ih =>
    intro i r hr htr hok
    obtain ⟨r', rfl⟩ := Nat.exists_eq_succ_of_ne_zero
      (Nat.pos_iff_ne_zero.mp (Nat.lt_of_le_of_lt (Nat.zero_le _) hr))
    have h0 : (outcome i).isTransient = true := by
      have := htr 0 (Nat.succ_pos j); simpa using this
    rw [retryLoop_transient r' h0, ih (i + 1) r' (Nat.lt_of_succ_lt_succ hr)
      (fun k hk => by
        have := htr (k + 1) (Nat.succ_lt_succ hk)
        simpa [Nat.add_assoc, Nat.add_comm 1 k] using this)
      (by have : i + 1 + j = i + (j + 1) := by omega
          rw [this]; exact hok)]
    simp [List.range_succ_eq_map, List.map_map, Function.comp]
    intro a _
    omega

/-- If the first `j` attempts fail transiently and attempt `j` fails with a
non-transient error, the loop surfaces that error immediately: `j + 1`
attempts, not exhausted, sleeps only for the transient failures before it. -/
theorem retryLoop_transient_then_failed (outcome : Nat → ExecOutcome) :
    ∀ j i r, j < r → (∀ k, k < j → (outcome (i + k)).isTransient = true) →
      outcome (i + j) = .failed →
      retryLoop outcome i r =
        { success := false, exhausted := false, attempts := j + 1,
          sleeps := (List.range j).map (fun k => (i + k + 1) * 100) } := by
  intro j
  induction j with
  | zero =>
    intro i r hr _ hfail
    obtain ⟨r', rfl⟩ := Nat.exists_eq_succ_of_ne_zero (Nat.pos_iff_ne_zero.mp hr)
    rw [retryLoop_failed r' (by simpa using hfail)]
    simp
  | succ j ih =>
    intro i r hr htr hfail
    obtain ⟨r', rfl⟩ := Nat.exists_eq_succ_of_ne_zero
      (Nat.pos_iff_ne_zero.mp (Nat.lt_of_le_of_lt (Nat.zero_le _) hr))
    have h0 : (outcome i).isTransient = true := by
      have := htr 0 (Nat.succ_pos j); simpa using this
    rw [retryLoop_transient r' h0, ih (i + 1) r' (Nat.lt_of_succ_lt_succ hr)
      (fun k hk => by
        have := htr (k + 1) (Nat.succ_lt_succ hk)
        simpa [Nat.add_assoc, Nat.add_comm 1 k] using this)
      (by have : i + 1 + j = i + (j + 1) := by omega
          rw [this]; exact hfail)]
    simp [List.range_succ_eq_map, List.map_map, Function.comp]
    intro a _
    omega

/-! ## External-store response handling (`uploadFile`, `deleteFile`)

Only the response-status handling is modelled; building the request and the
transport are collaborator concerns. -/

/-- `uploadFile` response handling: the source returns an error unless
`resp.StatusCode == http.StatusOK`, i.e. success exactly on status 200. -/
def uploadRespSuccess (statusCode : Nat) : Bool := statusCode == 200

/-- `deleteFile`'s returned value: an error is returned only when the HTTP
request itself could not be created or executed (`requestFailed`); once any
response is received, the function returns `nil` whatever the status code
(a non-"no content" status is only printed). -/
def deleteFileReportsError (requestFailed : Bool) (_statusCode : Nat) : Bool :=
  requestFailed

/-- What `deleteFile` prints on a received response: "Deleted document ID"
exactly when the status is 204 (`http.StatusNoContent`), a failure line
otherwise. -/
def deleteFileLogsSuccess (statusCode : Nat) : Bool := statusCode == 204

/-! ## Environment: outcomes of the fallible collaborator calls

Each field decides the net outcome of one call site, keyed by the argument the
source passes there.  `lookupErr`, `updateErr` and `insertErr` are the
`StoreError` outcomes of `productExists`, `updateProductStatus` and
`insertProduct` (the latter two after the retry loop modelled above);
`deleteReqErr` is a request-level failure of `deleteFile`; `writeErr` a
failure of `ioutil.WriteFile`; `uploadStatus` the HTTP status the upload of a
given path gets answered with. -/
structure Env where
  lookupErr : String → Bool
  updateErr : String → Bool
  insertErr : String → Bool
  deleteReqErr : String → Bool
  writeErr : String → Bool
  uploadStatus : String → Nat

/-- Trace of the engine's calls against the store and the collaborators, in
program order.  `lookupRec`/`updateRec`/`insertRec` are persisted-store calls;
`deleteDoc` and `uploadDoc` are external-store calls; `enrich` is the
page-enrichment call; `writeLocal` the local document write. -/
inductive Event
  | lookupRec (id : String)
  | updateRec (id : String) (status : String) (price : Int)
  | insertRec (id : String) (price : Int) (mpn : String) (status : String)
  | deleteDoc (id : String)
  | enrich (link : String)
  | writeLocal (path : String)
  | uploadDoc (path : String)
deriving DecidableEq, Repr

/-- `insertProduct` (net effect after its retry loop).
Modelled from the spec: the `CREATE TABLE` of the `products` table is not in
the source; per the spec the table is keyed by identifier and
`insert(identifier, ...)` "Fails with `DuplicateKey` if the identifier already
exists".  Any other failure is a surfaced `StoreError`, decided by `env`. -/
def insertProduct (env : Env) (s : Store) (p : Product) : Except String Store :=
  if s.any (fun r => r.uniqueCode == p.uniqueCode) then
    .error "DuplicateKey"
  else if env.insertErr p.uniqueCode then
    .error "StoreError"
  else
    .ok (s ++ [p])

/-- `updateProductStatus` (net effect after its retry loop):
`UPDATE products SET status = ?, price = ? WHERE unique_code = ?`. -/
def updateProductStatus (env : Env) (s : Store) (uniqueCode status : String)
    (price : Int) : Except String Store :=
  if env.updateErr uniqueCode then
    .error "StoreError"
  else
    .ok (s.map fun r =>
      if r.uniqueCode == uniqueCode then
        { r with status := status, price := price }
      else r)

/-- `folderPath` constant from the source. -/
def folderPath : String := "product"

/-- The output path of `processItem`:
`filepath.Join(folderPath, fmt.Sprintf("Prod_%s.txt", title))` with
`title = item.ID` (`filepath.Join` cleans the leading `./`). -/
def outputFilePath (id : String) : String :=
  folderPath ++ "/Prod_" ++ id ++ ".txt"

/-- Result of `processItem`: whether it returned `nil`, the local files after
the call, and the calls it made. -/
structure PIResult where
  ok : Bool
  fs : List String
  events : List Event
deriving Repr

/-- `processItem`: if the output file already exists, return `nil` at once.
Otherwise call `fetchSpecification` (best-effort: its failure is only printed
and degrades the document's content, which no claim concerns, so the outcome
is not tracked), write the formatted document locally (on failure: error
return, file treated as absent), then upload it (error return unless the
response status is 200). -/
def processItem (env : Env) (fs : List String) (item : Item) : PIResult :=
  let path := outputFilePath item.id
  if fs.contains path then
    { ok := true, fs := fs, events := [] }
  else if env.writeErr path then
    { ok := false, fs := fs, events := [.enrich item.link, .writeLocal path] }
  else if uploadRespSuccess (env.uploadStatus path) then
    { ok := true, fs := path :: fs,
      events := [.enrich item.link, .writeLocal path, .uploadDoc path] }
  else
    { ok := false, fs := path :: fs,
      events := [.enrich item.link, .writeLocal path, .uploadDoc path] }

/-- Result of one `worker` call: the store and local files afterwards, the
calls made, and the log lines emitted (the source logs and returns — a worker
never stops the run). -/
structure WResult where
  store : Store
  fs : List String
  events : List Event
  logs : List String
deriving Repr

/-- The per-item `worker` body (run under the run-wide mutex):
```
exists, price, err := productExists(db, item.ID); if err != nil { log; return }
if exists {
  if price == item.Price { err = updateProductStatus(db, item.ID, "existing", item.Price) }
  else {
    err = updateProductStatus(db, item.ID, "updated", item.Price) // err overwritten below
    err = deleteFile(item.ID); if err != nil { log }
    err = insertProduct(db, Product{item.ID, item.Price, item.MPN, "new"})
    if err == nil { err = processItem(item) }
  }
} else {
  err = insertProduct(db, Product{item.ID, item.Price, item.MPN, "new"})
  if err == nil { err = processItem(item) }
}
if err != nil { log }
```
Note the price-changed branch discards the result of `updateProductStatus`
(the next assignment overwrites `err`), so a failed update does not stop the
remaining steps. -/
def worker (env : Env) (s : Store) (fs : List String) (item : Item) : WResult :=
  if env.lookupErr item.id then
    { store := s, fs := fs, events := [.lookupRec item.id],
      logs := ["Error checking product existence"] }
  else
    match productExists s item.id with
    | (true, price) =>
      if price == item.price then
        match updateProductStatus env s item.id "existing" item.price with
        | .ok s2 =>
          { store := s2, fs := fs,
            events := [.lookupRec item.id, .updateRec item.id "existing" item.price],
            logs := [] }
        | .error _ =>
          { store := s, fs := fs,
            events := [.lookupRec item.id, .updateRec item.id "existing" item.price],
            logs := ["Failed to process item"] }
      else
        let s2 := match updateProductStatus env s item.id "updated" item.price with
          | .ok s2 => s2
          | .error _ => s
        let delLogs : List String :=
          if env.deleteReqErr item.id then ["Failed to delete document"] else []
        let ev0 : List Event :=
          [.lookupRec item.id, .updateRec item.id "updated" item.price,
           .deleteDoc item.id, .insertRec item.id item.price item.mpn "new"]
        match insertProduct env s2 ⟨item.id, item.price, item.mpn, "new"⟩ with
        | .ok s3 =>
          let pr := processItem env fs item
          { store := s3, fs := pr.fs, events := ev0 ++ pr.events,
            logs := delLogs ++ if pr.ok then [] else ["Failed to process item"] }
        | .error _ =>
          { store := s2, fs := fs, events := ev0,
            logs := delLogs ++ ["Failed to process item"] }
    | (false, _) =>
      let ev0 : List Event :=
        [.lookupRec item.id, .insertRec item.id item.price item.mpn "new"]
      match insertProduct env s ⟨item.id, item.price, item.mpn, "new"⟩ with
      | .ok s2 =>
        let pr := processItem env fs item
        { store := s2, fs := pr.fs, events := ev0 ++ pr.events,
          logs := if pr.ok then [] else ["Failed to process item"] }
      | .error _ =>
        { store := s, fs := fs, events := ev0,
          logs := ["Failed to process item"] }

/-- Result of a whole pass over the feed. -/
structure RunResult where
  store : Store
  fs : List String
  events : List Event
deriving Repr

/-- The item loop of `processXMLData`: the worker bodies are serialized by the
run-wide mutex each worker holds for its whole body, so a run is a fold of
`worker` over the items in some order; completion order is unspecified, which
is captured by quantifying theorems over the item list. -/
def runWorkers (env : Env) : Store → List String → List Item → RunResult
  | s, fs, [] => { store := s, fs := fs, events := [] }
  | s, fs, item :: rest =>
    let w := worker env s fs item
    let r := runWorkers env w.store w.fs rest
    { store := r.store, fs := r.fs, events := w.events ++ r.events }

/-- One run as sequenced by `main`: `markAllRecordsAsDeleted`, then the items
through the worker pool. -/
def runAll (env : Env) (s : Store) (fs : List String) (items : List Item) :
    RunResult :=
  runWorkers env (markAllRecordsAsDeleted s) fs items

/-! ## The worker pool of `processXMLData`

`processXMLData` dispatches one goroutine per item, acquiring a slot of the
buffered channel `sem` (capacity `maxWorkers`) before spawning and releasing
it when the goroutine exits, and `wg.Wait()` blocks until every spawned worker
has called `wg.Done()`.  The pool is embedded as a transition system whose
guards are the Go synchronization semantics: a send on a buffered channel
blocks while the buffer is full (so a dispatch requires `inFlight <
maxWorkers`), and `wg.Wait()` returns only once the counter
(`dispatched - done`) is zero, which `main` reaches only after the dispatch
loop has ended (`dispatched = total`). -/

/-- Scheduler state: how many items the loop has dispatched (semaphore slot
acquired and goroutine spawned) and how many workers have finished (slot
released, `wg.Done` called). -/
structure SchedState where
  dispatched : Nat
  done : Nat
deriving DecidableEq, Repr

/-- Workers currently inside their processing sequence: dispatched and not yet
finished; each holds one semaphore slot for exactly this interval. -/
def SchedState.inFlight (s : SchedState) : Nat := s.dispatched - s.done

/-- One scheduler transition for a feed of `total` items. -/
inductive SchedStep (total : Nat) : SchedState → SchedState → Prop
  | dispatch (s : SchedState) (hleft : s.dispatched < total)
      (hslot : s.dispatched - s.done < maxWorkers) :
      SchedStep total s { dispatched := s.dispatched + 1, done := s.done }
  | complete (s : SchedState) (hrunning : s.done < s.dispatched) :
      SchedStep total s { dispatched := s.dispatched, done := s.done + 1 }

/-- States a run of `processXMLData` can be in, starting from no work done. -/
inductive SchedReachable (total : Nat) : SchedState → Prop
  | init : SchedReachable total { dispatched := 0, done := 0 }
  | step {s t : SchedState} : SchedReachable total s → SchedStep total s t →
      SchedReachable total t

/-- The condition under which `processXMLData` returns: the dispatch loop has
consumed the whole feed and `wg.Wait()` observes a zero counter. -/
def waitReturns (total : Nat) (s : SchedState) : Prop :=
  s.dispatched = total ∧ s.dispatched - s.done = 0

/-! ## Concrete fixtures -/

/-- An environment in which every store call succeeds, the delete request is
deliverable and every upload is answered with status 200. -/
def cleanEnv : Env where
  lookupErr := fun _ => false
  updateErr := fun _ => false
  insertErr := fun _ => false
  deleteReqErr := fun _ => false
  writeErr := fun _ => false
  uploadStatus := fun _ => 200

/-- A feed item with identifier "A" and price 750 (7.50 at two decimals). -/
def itemA : Item where
  id := "A"
  title := "item A"
  descriptionText := ""
  price := 750
  link := "lnk"
  imageLink := ""
  brand := ""
  mpn := "m"
  gtin := ""
  availability := ""
  condition := ""
  inventory := 0

/-- A persisted record for identifier "A" with the prior price 500. -/
def recA : Product where
  uniqueCode := "A"
  price := 500
  mpn := "m"
  status := "existing"

/-- A feed item with identifier "B" and price 200. -/
def itemB : Item where
  id := "B"
  title := "item B"
  descriptionText := ""
  price := 200
  link := "lnkB"
  imageLink := ""
  brand := ""
  mpn := "mb"
  gtin := ""
  availability := ""
  condition := ""
  inventory := 0

/-- A persisted record for identifier "B" whose price matches `itemB`. -/
def recB : Product where
  uniqueCode := "B"
  price := 200
  mpn := "mb"
  status := "existing"

/-- `cleanEnv`, except that the store update for identifier "A" fails with a
`StoreError`. -/
def envUpdateFails : Env :=
  { cleanEnv with updateErr := fun uc => uc == "A" }

/-- `cleanEnv`, except that the existence lookup for identifier "A" fails. -/
def envLookupFails : Env :=
  { cleanEnv with lookupErr := fun uc => uc == "A" }

/-- An attempt schedule for the retry loop: transient contention four times,
then success. -/
def outcomeFourBusyThenOk : Nat → ExecOutcome :=
  fun k => if k < 4 then .busy else .ok

/-! ## Store-level helper lemmas -/

theorem productExists_true_any {s : Store} {id : String} {p : Int}
    (h : productExists s id = (true, p)) :
    s.any (fun r => r.uniqueCode == id) = true := by
  unfold productExists at h
  cases hf : s.find? (fun r => r.uniqueCode == id) with
  | none => rw [hf] at h; simp at h
  | some r =>
    have hp := List.find?_some hf
    exact List.any_eq_true.mpr ⟨r, List.mem_of_find?_eq_some hf, hp⟩

theorem productExists_false_any {s : Store} {id : String} {z : Int}
    (h : productExists s id = (false, z)) :
    s.any (fun r => r.uniqueCode == id) = false := by
  unfold productExists at h
  cases hf : s.find? (fun r => r.uniqueCode == id) with
  | none =>
    rw [List.find?_eq_none] at hf
    simp only [List.any_eq_false]
    exact fun r hr => by simpa using hf r hr
  | some r => rw [hf] at h; simp at h

theorem productExists_true_mem {s : Store} {id : String} {p : Int}
    (h : productExists s id = (true, p)) :
    ∃ r ∈ s, r.uniqueCode = id ∧ r.price = p := by
  unfold productExists at h
  cases hf : s.find? (fun r => r.uniqueCode == id) with
  | none => rw [hf] at h; simp at h
  | some r =>
    rw [hf] at h
    refine ⟨r, List.mem_of_find?_eq_some hf, ?_, ?_⟩
    · have hp := List.find?_some hf
      simpa using hp
    · simpa using congrArg Prod.snd h

/-- With the one-record-per-identifier invariant, any two rows of the store
with the same identifier coincide. -/
theorem uniqueIds_eq_of_code {s : Store} (hu : UniqueIds s) {r x : Product}
    (hr : r ∈ s) (hx : x ∈ s) (heq : x.uniqueCode = r.uniqueCode) : x = r :=
  List.inj_on_of_nodup_map hu hx hr heq

/-- A map that does not change identifiers does not change the result of the
store-wide duplicate test. -/
theorem any_code_map {s : Store} {f : Product → Product}
    (hf : ∀ r, (f r).uniqueCode = r.uniqueCode) (id : String) :
    (s.map f).any (fun r => r.uniqueCode == id) =
      s.any (fun r => r.uniqueCode == id) := by
  induction s with
  | nil => rfl
  | cons a as ih => simp [List.any_cons, hf, ih]

/-- A map that does not change identifiers does not change the identifier
column. -/
theorem ids_map {s : Store} {f : Product → Product}
    (hf : ∀ r, (f r).uniqueCode = r.uniqueCode) :
    ids (s.map f) = ids s := by
  simp only [ids, List.map_map]
  exact List.map_congr_left fun r _ => hf r

theorem ids_markAllRecordsAsDeleted (s : Store) :
    ids (markAllRecordsAsDeleted s) = ids s :=
  ids_map fun _ => rfl

theorem markAllRecordsAsDeleted_status {s : Store} {r : Product}
    (h : r ∈ markAllRecordsAsDeleted s) : r.status = "deleted" := by
  unfold markAllRecordsAsDeleted at h
  obtain ⟨x, _, rfl⟩ := List.mem_map.mp h
  rfl

theorem updateProductStatus_ok {env : Env} {s : Store} {uc st : String}
    {p : Int} {s2 : Store}
    (h : updateProductStatus env s uc st p = .ok s2) :
    env.updateErr uc = false ∧
    s2 = s.map fun r =>
      if r.uniqueCode == uc then { r with status := st, price := p } else r := by
  unfold updateProductStatus at h
  by_cases he : env.updateErr uc <;> simp [he] at h ⊢
  exact h.symm

theorem updateProductStatus_error {env : Env} {s : Store} {uc st : String}
    {p : Int} {e : String}
    (h : updateProductStatus env s uc st p = .error e) :
    env.updateErr uc = true := by
  unfold updateProductStatus at h
  by_cases he : env.updateErr uc <;> simp [he] at h ⊢

theorem insertProduct_ok {env : Env} {s : Store} {p : Product} {s2 : Store}
    (h : insertProduct env s p = .ok s2) :
    s.any (fun r => r.uniqueCode == p.uniqueCode) = false ∧
    env.insertErr p.uniqueCode = false ∧ s2 = s ++ [p] := by
  unfold insertProduct at h
  by_cases hd : s.any (fun r => r.uniqueCode == p.uniqueCode) <;>
    simp [hd] at h ⊢
  by_cases he : env.insertErr p.uniqueCode <;> simp [he] at h ⊢
  exact h.symm

theorem insertProduct_duplicate {env : Env} {s : Store} {p : Product}
    (h : s.any (fun r => r.uniqueCode == p.uniqueCode) = true) :
    insertProduct env s p = .error "DuplicateKey" := by
  simp [insertProduct, h]

/-! ## Worker path lemmas -/

/-- A failed existence lookup aborts the item: nothing is mutated and no
further call is made. -/
theorem worker_lookupErr {env : Env} {s : Store} {fs : List String}
    {item : Item} (h : env.lookupErr item.id = true) :
    worker env s fs item =
      { store := s, fs := fs, events := [.lookupRec item.id],
        logs := ["Error checking product existence"] } := by
  simp [worker, h]

/-- The price-unchanged path with a successful update: the matching rows get
status `existing` and price `item.price`, and the only calls are the lookup
and the update. -/
theorem worker_priceUnchanged {env : Env} {s : Store} {fs : List String}
    {item : Item}
    (hl : env.lookupErr item.id = false)
    (hpe : productExists s item.id = (true, item.price))
    (hud : env.updateErr item.id = false) :
    worker env s fs item =
      { store := s.map fun r =>
          if r.uniqueCode == item.id then
            { r with status := "existing", price := item.price }
          else r,
        fs := fs,
        events := [.lookupRec item.id, .updateRec item.id "existing" item.price],
        logs := [] } := by
  simp only [worker, hl, Bool.false_eq_true, if_false, hpe, beq_self_eq_true,
    if_true, updateProductStatus, hud]

/-- The price-changed path: whatever the update's outcome, the delete and the
insert are still attempted, and the insert fails with `DuplicateKey` because
the prior record still occupies the identifier; produce-and-publish is never
reached, so the local files are untouched and no enrichment, write or upload
event occurs. -/
theorem worker_priceChanged {env : Env} {s : Store} {fs : List String}
    {item : Item} {p : Int}
    (hl : env.lookupErr item.id = false)
    (hpe : productExists s item.id = (true, p))
    (hne : (p == item.price) = false) :
    (worker env s fs item).fs = fs ∧
    (worker env s fs item).events =
      [.lookupRec item.id, .updateRec item.id "updated" item.price,
       .deleteDoc item.id, .insertRec item.id item.price item.mpn "new"] ∧
    (worker env s fs item).logs =
      (if env.deleteReqErr item.id then ["Failed to delete document"] else [])
        ++ ["Failed to process item"] := by
  have hany : s.any (fun r => r.uniqueCode == item.id) = true :=
    productExists_true_any hpe
  simp only [worker, hl, Bool.false_eq_true, if_false, hpe, hne]
  cases hu : updateProductStatus env s item.id "updated" item.price with
  | ok s2 =>
    obtain ⟨-, rfl⟩ := updateProductStatus_ok hu
    have : (s.map fun r =>
        if r.uniqueCode == item.id then
          { r with status := "updated", price := item.price }
        else r).any (fun r => r.uniqueCode == item.id) = true := by
      rw [any_code_map (fun r => by by_cases h : r.uniqueCode == item.id <;>
        simp [h]) item.id]
      exact hany
    rw [insertProduct_duplicate this]
    simp
  | error e =>
    rw [insertProduct_duplicate hany]
    simp

/-- The fresh-identifier path when the insert surfaces a `StoreError`: the
item is aborted after the insert, nothing is mutated, produce-and-publish is
not reached. -/
theorem worker_newItem_insertErr {env : Env} {s : Store} {fs : List String}
    {item : Item} {z : Int}
    (hl : env.lookupErr item.id = false)
    (hpe : productExists s item.id = (false, z))
    (hi : env.insertErr item.id = true) :
    worker env s fs item =
      { store := s, fs := fs,
        events := [.lookupRec item.id, .insertRec item.id item.price item.mpn "new"],
        logs := ["Failed to process item"] } := by
  have hany : s.any (fun r => r.uniqueCode == item.id) = false :=
    productExists_false_any hpe
  simp only [worker, hl, Bool.false_eq_true, if_false, hpe]
  rw [show insertProduct env s ⟨item.id, item.price, item.mpn, "new"⟩
      = .error "StoreError" by simp [insertProduct, hany, hi]]

theorem not_mem_ids_of_any_false {s : Store} {code : String}
    (h : s.any (fun r => r.uniqueCode == code) = false) : code ∉ ids s := by
  intro hmem
  obtain ⟨r, hr, hrc⟩ := List.mem_map.mp hmem
  rw [List.any_eq_false] at h
  exact h r hr (by simp [hrc])

theorem uniqueIds_update {env : Env} {s : Store} {uc st : String} {p : Int}
    {s2 : Store} (hu : UniqueIds s)
    (h : updateProductStatus env s uc st p = .ok s2) : UniqueIds s2 := by
  obtain ⟨-, rfl⟩ := updateProductStatus_ok h
  unfold UniqueIds
  rw [ids_map (fun r => by by_cases hc : r.uniqueCode == uc <;> simp [hc])]
  exact hu

theorem uniqueIds_insert_ok {env : Env} {s1 s2 : Store} {p : Product}
    (hu : UniqueIds s1) (hi : insertProduct env s1 p = .ok s2) :
    UniqueIds s2 := by
  obtain ⟨hany, -, rfl⟩ := insertProduct_ok hi
  have hnm : p.uniqueCode ∉ ids s1 := not_mem_ids_of_any_false hany
  unfold UniqueIds at hu ⊢
  unfold ids at hu hnm ⊢
  rw [List.map_append]
  simp [List.nodup_append, hu, hnm]

theorem mem_update_ne {env : Env} {s : Store} {uc st : String} {p : Int}
    {s2 : Store} {r : Product}
    (h : updateProductStatus env s uc st p = .ok s2)
    (hr : r ∈ s2) (hne : r.uniqueCode ≠ uc) : r ∈ s := by
  obtain ⟨-, rfl⟩ := updateProductStatus_ok h
  obtain ⟨x, hx, hfx⟩ := List.mem_map.mp hr
  by_cases hc : x.uniqueCode == uc
  · exfalso
    apply hne
    rw [← hfx]
    simp only [hc, if_true]
    simpa using hc
  · rw [← hfx]
    simp only [hc, Bool.false_eq_true, if_false]
    exact hx

/-- Characterization of the store a worker leaves behind: it is the input
store, the result of one successful in-place update of the item's identifier,
or such a store plus one successfully appended record for the item. -/
theorem worker_store_spec (env : Env) (s : Store) (fs : List String)
    (item : Item) :
    ∃ s1, (worker env s fs item).store = s1 ∧
      (s1 = s ∨
       (∃ st, updateProductStatus env s item.id st item.price = .ok s1) ∨
       (∃ s2, (s2 = s ∨
           ∃ st, updateProductStatus env s item.id st item.price = .ok s2) ∧
         insertProduct env s2 ⟨item.id, item.price, item.mpn, "new"⟩ = .ok s1)) := by
  unfold worker
  by_cases hl : env.lookupErr item.id
  · simp only [hl, if_true]
    exact ⟨s, rfl, Or.inl rfl⟩
  · simp only [hl, Bool.false_eq_true, if_false]
    cases hpe : productExists s item.id with
    | mk found price =>
      cases found with
      | false =>
        dsimp only
        cases hi : insertProduct env s ⟨item.id, item.price, item.mpn, "new"⟩ with
        | ok s3 =>
          exact ⟨s3, rfl, Or.inr (Or.inr ⟨s, Or.inl rfl, hi⟩)⟩
        | error e =>
          exact ⟨s, rfl, Or.inl rfl⟩
      | true =>
        dsimp only
        by_cases hp : (price == item.price) = true
        · simp only [hp, if_true]
          cases hup : updateProductStatus env s item.id "existing" item.price with
          | ok s2 => exact ⟨s2, rfl, Or.inr (Or.inl ⟨"existing", hup⟩)⟩
          | error e => exact ⟨s, rfl, Or.inl rfl⟩
        · simp only [hp, if_false]
          cases hup : updateProductStatus env s item.id "updated" item.price with
          | ok s2 =>
            dsimp only
            cases hi : insertProduct env s2 ⟨item.id, item.price, item.mpn, "new"⟩ with
            | ok s3 =>
              exact ⟨s3, rfl, Or.inr (Or.inr ⟨s2, Or.inr ⟨"updated", hup⟩, hi⟩)⟩
            | error e =>
              exact ⟨s2, rfl, Or.inr (Or.inl ⟨"updated", hup⟩)⟩
          | error e =>
            dsimp only
            cases hi : insertProduct env s ⟨item.id, item.price, item.mpn, "new"⟩ with
            | ok s3 =>
              exact ⟨s3, rfl, Or.inr (Or.inr ⟨s, Or.inl rfl, hi⟩)⟩
            | error e2 =>
              exact ⟨s, rfl, Or.inl rfl⟩

theorem uniqueIds_worker (env : Env) (s : Store) (fs : List String)
    (item : Item) (hu : UniqueIds s) :
    UniqueIds (worker env s fs item).store := by
  obtain ⟨s1, heq, hcase⟩ := worker_store_spec env s fs item
  rw [heq]
  rcases hcase with rfl | ⟨st, hup⟩ | ⟨s2, hs2, hi⟩
  · exact hu
  · exact uniqueIds_update hu hup
  · have hu2 : UniqueIds s2 := by
      rcases hs2 with rfl | ⟨st, hup⟩
      · exact hu
      · exact uniqueIds_update hu hup
    exact uniqueIds_insert_ok hu2 hi

/-- A worker never touches a record whose identifier is not the item's. -/
theorem worker_store_stable (env : Env) (s : Store) (fs : List String)
    (item : Item) {r : Product}
    (hr : r ∈ (worker env s fs item).store) (hne : r.uniqueCode ≠ item.id) :
    r ∈ s := by
  obtain ⟨s1, heq, hcase⟩ := worker_store_spec env s fs item
  rw [heq] at hr
  rcases hcase with rfl | ⟨st, hup⟩ | ⟨s2, hs2, hi⟩
  · exact hr
  · exact mem_update_ne hup hr hne
  · obtain ⟨-, -, rfl⟩ := insertProduct_ok hi
    rcases List.mem_append.mp hr with hr2 | hr2
    · rcases hs2 with rfl | ⟨st, hup⟩
      · exact hr2
      · exact mem_update_ne hup hr2 hne
    · rw [List.mem_singleton] at hr2
      subst hr2
      exact absurd rfl hne

theorem uniqueIds_runWorkers (env : Env) :
    ∀ (items : List Item) (s : Store) (fs : List String), UniqueIds s →
      UniqueIds (runWorkers env s fs items).store := by
  intro items
  induction items with
  | nil => intro s fs hu; exact hu
  | cons item rest ih =>
    intro s fs hu
    exact ih _ _ (uniqueIds_worker env s fs item hu)

theorem runWorkers_stable (env : Env) :
    ∀ (items : List Item) (s : Store) (fs : List String) (r : Product),
      r ∈ (runWorkers env s fs items).store →
      r.uniqueCode ∉ items.map Item.id → r ∈ s := by
  intro items
  induction items with
  | nil => intro s fs r hr _; exact hr
  | cons item rest ih =>
    intro s fs r hr hnm
    simp only [List.map_cons, List.mem_cons, not_or] at hnm
    obtain ⟨hne, hnm2⟩ := hnm
    exact worker_store_stable env s fs item
      (ih (worker env s fs item).store (worker env s fs item).fs r hr hnm2) hne

/-! ## Claim theorems -/

/-- C1 (the code evaluated at the failing input): for an item whose record
exists with a different price, the worker updates the prior record in place to
status `updated` with the new price and attempts the best-effort
external-store delete, but the insert of the record with status `new` hits
`DuplicateKey` — the identifier is still occupied by the prior record — so
afterwards no record with status `new` exists and produce-and-publish never
runs: the item is not republished, against the spec's intent that a new record
be inserted and the item fully processed and published. -/
theorem worker_priceChanged_failing_input :
    worker cleanEnv [recA] [] itemA =
      { store := [{ uniqueCode := "A", price := 750, mpn := "m",
                    status := "updated" }],
        fs := [],
        events := [.lookupRec "A", .updateRec "A" "updated" 750, .deleteDoc "A",
                   .insertRec "A" 750 "m" "new"],
        logs := ["Failed to process item"] } ∧
    ((worker cleanEnv [recA] [] itemA).store.any
      fun r => r.status == "new") = false := by
  exact ⟨rfl, rfl⟩

/-- C3 counterexample: with the store update for identifier "A" failing with
a `StoreError` in the price-changed path, further processing steps still run
for that item — the external-store delete and the insert are attempted after
the failed update (the source overwrites the update's error without checking
it), contradicting "no further processing steps run for that item". -/
theorem worker_updateErr_not_aborting_cex :
    envUpdateFails.updateErr itemA.id = true ∧
    (worker envUpdateFails [recA] [] itemA).events =
      [.lookupRec "A", .updateRec "A" "updated" 750, .deleteDoc "A",
       .insertRec "A" 750 "m" "new"] := by
  exact ⟨rfl, rfl⟩

/-- C3 amended: a per-item `StoreError` never affects other items or the run
(the item loop continues with the remaining items whatever one worker's
outcome), and it aborts the failing item in the lookup case, the
unchanged-price update case and the fresh-identifier insert case; but in the
price-changed path an update `StoreError` does not stop the remaining steps
of that item — the delete and insert are still attempted. -/
theorem worker_error_isolation (env : Env) (s : Store) (fs : List String)
    (item : Item) (rest : List Item) :
    (env.lookupErr item.id = true →
      worker env s fs item =
        { store := s, fs := fs, events := [.lookupRec item.id],
          logs := ["Error checking product existence"] }) ∧
    (env.lookupErr item.id = false →
      productExists s item.id = (true, item.price) →
      env.updateErr item.id = true →
      worker env s fs item =
        { store := s, fs := fs,
          events := [.lookupRec item.id,
                     .updateRec item.id "existing" item.price],
          logs := ["Failed to process item"] }) ∧
    (∀ z, env.lookupErr item.id = false →
      productExists s item.id = (false, z) →
      env.insertErr item.id = true →
      worker env s fs item =
        { store := s, fs := fs,
          events := [.lookupRec item.id,
                     .insertRec item.id item.price item.mpn "new"],
          logs := ["Failed to process item"] }) ∧
    (runWorkers env s fs (item :: rest) =
      { store := (runWorkers env (worker env s fs item).store
          (worker env s fs item).fs rest).store,
        fs := (runWorkers env (worker env s fs item).store
          (worker env s fs item).fs rest).fs,
        events := (worker env s fs item).events ++
          (runWorkers env (worker env s fs item).store
            (worker env s fs item).fs rest).events }) := by
  refine ⟨fun h => worker_lookupErr h, ?_, fun z hl hpe hi =>
    worker_newItem_insertErr hl hpe hi, rfl⟩
  intro hl hpe hud
  simp only [worker, hl, Bool.false_eq_true, if_false, hpe, beq_self_eq_true,
    if_true]
  rw [show updateProductStatus env s item.id "existing" item.price
      = .error "StoreError" by simp [updateProductStatus, hud]]

/-- Witness for C3's amended theorem: a failed lookup for a concrete item
leaves the store and files untouched and makes no further call. -/
theorem worker_error_isolation_witness :
    worker envLookupFails [recA] [] itemA =
      { store := [recA], fs := [], events := [.lookupRec "A"],
        logs := ["Error checking product existence"] } :=
  (worker_error_isolation envLookupFails [recA] [] itemA []).1 rfl

/-- C5: for an item whose existing record's persisted price equals the item's
price, the worker sets the matching record's status to `existing`, leaves
every matched record's price unchanged, and makes no external-store call (no
upload, no delete) and no enrichment call. -/
theorem worker_priceUnchanged_noop (env : Env) (s : Store) (fs : List String)
    (item : Item)
    (hu : UniqueIds s)
    (hpe : productExists s item.id = (true, item.price))
    (hl : env.lookupErr item.id = false)
    (hud : env.updateErr item.id = false) :
    worker env s fs item =
      { store := s.map fun r =>
          if r.uniqueCode == item.id then
            { r with status := "existing", price := item.price }
          else r,
        fs := fs,
        events := [.lookupRec item.id,
                   .updateRec item.id "existing" item.price],
        logs := [] } ∧
    (∀ x ∈ s, x.uniqueCode = item.id → x.price = item.price) := by
  refine ⟨worker_priceUnchanged hl hpe hud, ?_⟩
  obtain ⟨r, hr, hrc, hrp⟩ := productExists_true_mem hpe
  intro x hx hxc
  have hxr : x = r := uniqueIds_eq_of_code hu hr hx (by rw [hxc, hrc])
  rw [hxr, hrp]

/-- Witness for C5's theorem: the concrete unchanged item "B" ends with
status `existing`, price unchanged, and only the lookup and update calls. -/
theorem worker_priceUnchanged_noop_witness :
    worker cleanEnv [recB] [] itemB =
      { store := [{ uniqueCode := "B", price := 200, mpn := "mb",
                    status := "existing" }],
        fs := [],
        events := [.lookupRec "B", .updateRec "B" "existing" 200],
        logs := [] } :=
  (worker_priceUnchanged_noop cleanEnv [recB] [] itemB
    (List.nodup_singleton "B") rfl rfl rfl).1

/-- C10 counterexample: for a price-changed item whose local output document
already exists, the claim says the worker inserts the new record and
produce-and-publish then returns on the existing-file check.  In fact the
insert fails with `DuplicateKey` — afterwards no record with status `new`
exists, the store holds only the in-place-updated prior record — and
produce-and-publish is never invoked at all: the worker's trace ends at the
insert. -/
theorem worker_fileExists_priceChanged_cex :
    ((worker cleanEnv [recA] [outputFilePath "A"] itemA).store.any
      fun r => r.status == "new") = false ∧
    (worker cleanEnv [recA] [outputFilePath "A"] itemA).events =
      [.lookupRec "A", .updateRec "A" "updated" 750, .deleteDoc "A",
       .insertRec "A" 750 "m" "new"] ∧
    (worker cleanEnv [recA] [outputFilePath "A"] itemA).store =
      [{ uniqueCode := "A", price := 750, mpn := "m", status := "updated" }] := by
  exact ⟨rfl, rfl, rfl⟩

/-- C10 amended: for a price-changed item whose local output document already
exists from a prior run, the worker attempts the best-effort external-store
delete and then the insert, but the insert fails with `DuplicateKey` (the
prior record still occupies the identifier), so produce-and-publish is never
invoked; in particular no new document is uploaded to the external store for
that item in this run, and the local files are unchanged. -/
theorem worker_fileExists_priceChanged_no_upload (env : Env) (s : Store)
    (fs : List String) (item : Item) (p : Int)
    (_hfile : outputFilePath item.id ∈ fs)
    (hl : env.lookupErr item.id = false)
    (hpe : productExists s item.id = (true, p))
    (hne : (p == item.price) = false) :
    (worker env s fs item).events =
      [.lookupRec item.id, .updateRec item.id "updated" item.price,
       .deleteDoc item.id, .insertRec item.id item.price item.mpn "new"] ∧
    Event.uploadDoc (outputFilePath item.id) ∉ (worker env s fs item).events ∧
    (worker env s fs item).fs = fs := by
  obtain ⟨h1, h2, h3⟩ := worker_priceChanged hl hpe hne
  refine ⟨h2, ?_, h1⟩
  rw [h2]
  simp

/-- Witness for C10's amended theorem at the concrete price-changed item "A"
with its output document present. -/
theorem worker_fileExists_priceChanged_no_upload_witness :
    (worker cleanEnv [recA] [outputFilePath "A"] itemA).events =
      [.lookupRec "A", .updateRec "A" "updated" 750, .deleteDoc "A",
       .insertRec "A" 750 "m" "new"] ∧
    Event.uploadDoc (outputFilePath "A") ∉
      (worker cleanEnv [recA] [outputFilePath "A"] itemA).events ∧
    (worker cleanEnv [recA] [outputFilePath "A"] itemA).fs =
      [outputFilePath "A"] :=
  worker_fileExists_priceChanged_no_upload cleanEnv [recA]
    [outputFilePath "A"] itemA 500 (List.mem_singleton.mpr rfl) rfl rfl rfl

/-- C4: For every mutating store call, if the call fails with a
transient-contention signal (busy or locked) on up to 4 consecutive attempts
and succeeds on the 5th, the call reports success; 5 consecutive transient
failures exhaust the retry budget of 5 attempts and surface a `StoreError`;
any non-transient error is surfaced immediately without further retries; and
the backoff before retry attempt `i+1` is `(i+1) * 100` ms, linearly
increasing. -/
theorem executeWithRetry_policy (outcome : Nat → ExecOutcome) :
    ((∀ k, k < 4 → (outcome k).isTransient = true) → outcome 4 = .ok →
      executeWithRetry outcome =
        { success := true, exhausted := false, attempts := 5,
          sleeps := [100, 200, 300, 400] }) ∧
    ((∀ k, k < 5 → (outcome k).isTransient = true) →
      executeWithRetry outcome =
        { success := false, exhausted := true, attempts := 5,
          sleeps := [100, 200, 300, 400, 500] }) ∧
    (∀ j, j < 5 → (∀ k, k < j → (outcome k).isTransient = true) →
      outcome j = .failed →
      executeWithRetry outcome =
        { success := false, exhausted := false, attempts := j + 1,
          sleeps := (List.range j).map (fun k => (k + 1) * 100) }) := by
  refine ⟨?_, ?_, ?_⟩
  · intro htr hok
    show retryLoop outcome 0 5 = _
    rw [retryLoop_transient_then_ok outcome 4 0 5 (by norm_num)
      (fun k hk => by simpa using htr k hk) (by simpa using hok)]
    decide
  · intro htr
    show retryLoop outcome 0 5 = _
    rw [retryLoop_all_transient outcome 5 0 (fun k hk => by simpa using htr k hk)]
    decide
  · intro j hj htr hfail
    show retryLoop outcome 0 5 = _
    rw [retryLoop_transient_then_failed outcome j 0 5 hj
      (fun k hk => by simpa using htr k hk) (by simpa using hfail)]
    simp

/-- Witness for C4's theorem: four busy attempts then a success reports
success with backoffs 100, 200, 300, 400 ms. -/
theorem executeWithRetry_policy_witness :
    executeWithRetry outcomeFourBusyThenOk =
      { success := true, exhausted := false, attempts := 5,
        sleeps := [100, 200, 300, 400] } := by
  refine (executeWithRetry_policy outcomeFourBusyThenOk).1 ?_ ?_
  · intro k hk
    interval_cases k <;> decide
  · decide

/-- C7: For an item whose output document already exists on local storage (at
the path derived from the item identifier), `processItem` performs no
enrichment call, no local write and no upload, leaves the local files
unchanged, and reports success — a no-op. -/
theorem processItem_existing_file_noop (env : Env) (fs : List String)
    (item : Item) (h : outputFilePath item.id ∈ fs) :
    processItem env fs item = { ok := true, fs := fs, events := [] } := by
  simp [processItem, h]

/-- Witness for C7's theorem at a concrete item and file system. -/
theorem processItem_existing_file_noop_witness :
    processItem cleanEnv [outputFilePath "A"] itemA =
      { ok := true, fs := [outputFilePath "A"], events := [] } :=
  processItem_existing_file_noop cleanEnv [outputFilePath "A"] itemA (by decide)

/-- C8 counterexample: the claim says create succeeds for any 2xx response
and any non-"no content" delete response is reported as an error.  But at
status 201 — a 2xx — the upload reports failure (the source accepts only
`http.StatusOK`), and a delete answered with status 500 logs a failure yet
reports no error (the source returns `nil` for every received response). -/
theorem uploadDelete_response_cex :
    ((200 ≤ 201 ∧ 201 < 300) ∧ uploadRespSuccess 201 = false) ∧
    (¬ (500 = 204) ∧ deleteFileLogsSuccess 500 = false ∧
      deleteFileReportsError false 500 = false) := by
  decide

/-- C8 amended: the upload reports success exactly when the response status
is 200 (other 2xx statuses included, any other status is an error); the
delete logs success exactly on status 204 ("no content") but returns an error
only when the request itself failed — every received response, whatever its
status, is reported as success. -/
theorem uploadDelete_response_amended (statusCode : Nat) (requestFailed : Bool) :
    (uploadRespSuccess statusCode = true ↔ statusCode = 200) ∧
    deleteFileReportsError requestFailed statusCode = requestFailed ∧
    (deleteFileLogsSuccess statusCode = true ↔ statusCode = 204) := by
  refine ⟨?_, rfl, ?_⟩ <;> simp [uploadRespSuccess, deleteFileLogsSuccess]

/-- C9: in every reachable scheduler state, no more than `maxWorkers = 5`
items are concurrently inside their processing sequence, and `processXMLData`
cannot return before every dispatched item has completed: when the dispatch
loop has ended and `wg.Wait()` observes a zero counter, all `total` items have
been dispatched and completed. -/
theorem schedStep_facts {total : Nat} {s t : SchedState}
    (h : SchedStep total s t) :
    (t.dispatched = s.dispatched + 1 ∧ t.done = s.done ∧
      s.dispatched < total ∧ s.dispatched - s.done < maxWorkers) ∨
    (t.dispatched = s.dispatched ∧ t.done = s.done + 1 ∧
      s.done < s.dispatched) := by
  cases h with
  | dispatch hleft hslot => exact Or.inl ⟨rfl, rfl, hleft, hslot⟩
  | complete hrunning => exact Or.inr ⟨rfl, rfl, hrunning⟩

theorem sched_bound_and_barrier (total : Nat) (s : SchedState)
    (h : SchedReachable total s) :
    s.done ≤ s.dispatched ∧ s.dispatched ≤ total ∧
      s.inFlight ≤ maxWorkers ∧
      (waitReturns total s → s.done = total ∧ s.dispatched = total) := by
  induction h with
  | init =>
    refine ⟨Nat.le_refl 0, Nat.zero_le total, by decide, ?_⟩
    intro hw
    have h1 : 0 = total := hw.1
    exact ⟨h1, h1⟩
  | step _ hstep ih =>
    obtain ⟨ih1, ih2, ih3, _⟩ := ih
    simp only [SchedState.inFlight, maxWorkers] at ih3 ⊢
    simp only [waitReturns]
    rcases schedStep_facts hstep with ⟨h1, h2, h3, h4⟩ | ⟨h1, h2, h3⟩
    · simp only [maxWorkers] at h4
      exact ⟨by omega, by omega, by omega, fun hw => by omega⟩
    · exact ⟨by omega, by omega, by omega, fun hw => by omega⟩

/-- Witness for C9's theorem at the reachable state with 2 items dispatched
and 1 completed, for a feed of 2 items. -/
theorem sched_bound_and_barrier_witness :
    SchedState.inFlight { dispatched := 2, done := 1 } ≤ maxWorkers := by
  have h0 : SchedReachable 2 { dispatched := 0, done := 0 } :=
    SchedReachable.init
  have h1 : SchedReachable 2 { dispatched := 1, done := 0 } :=
    SchedReachable.step h0
      (SchedStep.dispatch { dispatched := 0, done := 0 } (by decide) (by decide))
  have h2 : SchedReachable 2 { dispatched := 2, done := 0 } :=
    SchedReachable.step h1
      (SchedStep.dispatch { dispatched := 1, done := 0 } (by decide) (by decide))
  have h3 : SchedReachable 2 { dispatched := 2, done := 1 } :=
    SchedReachable.step h2
      (SchedStep.complete { dispatched := 2, done := 0 } (by decide))
  exact (sched_bound_and_barrier 2 { dispatched := 2, done := 1 } h3).2.2.1

/-- C2: every operation of a run preserves the exactly-one-record-per-
identifier invariant and no operation changes a record's identifier:
mark-all-stale keeps the identifier column pointwise, an in-place update
keeps it pointwise (only price and status are mutated), a successful insert
only appends a fresh identifier (it fails with `DuplicateKey` on an occupied
one), and a whole run — mark-all-stale followed by all workers, including the
price-changed path which updates the old record and then attempts an insert
under the same identifier — carries the invariant from the initial store to
the final one. -/
theorem run_uniqueIds (env : Env) (s : Store) (fs : List String)
    (items : List Item) (hu : UniqueIds s) :
    UniqueIds (runAll env s fs items).store ∧
    ids (markAllRecordsAsDeleted s) = ids s ∧
    (∀ uc st p s2, updateProductStatus env s uc st p = .ok s2 →
      ids s2 = ids s) ∧
    (∀ p s2, insertProduct env s p = .ok s2 →
      ids s2 = ids s ++ [p.uniqueCode]) := by
  refine ⟨?_, ids_markAllRecordsAsDeleted s, ?_, ?_⟩
  · apply uniqueIds_runWorkers
    unfold UniqueIds
    rw [ids_markAllRecordsAsDeleted]
    exact hu
  · intro uc st p s2 h
    obtain ⟨-, rfl⟩ := updateProductStatus_ok h
    exact ids_map fun r => by by_cases hc : r.uniqueCode == uc <;> simp [hc]
  · intro p s2 h
    obtain ⟨-, -, rfl⟩ := insertProduct_ok h
    simp [ids]

/-- Witness for C2's theorem: a concrete two-record store (one price-changed
item, one unchanged item) still has pairwise distinct identifiers after a
full run. -/
theorem run_uniqueIds_witness :
    UniqueIds (runAll cleanEnv [recA, recB] [] [itemA, itemB]).store :=
  (run_uniqueIds cleanEnv [recA, recB] [] [itemA, itemB]
    (by unfold UniqueIds ids; decide)).1

/-- C6: `markAllRecordsAsDeleted` sets the status of every record in the
store to `deleted`, and no operation of a run touches a record whose
identifier is not in the feed: every record of the final store whose
identifier is absent from the feed still has status `deleted` when the run
completes. -/
theorem run_keeps_absent_deleted (env : Env) (s : Store) (fs : List String)
    (items : List Item) :
    (∀ r ∈ markAllRecordsAsDeleted s, r.status = "deleted") ∧
    (∀ r ∈ (runAll env s fs items).store,
      r.uniqueCode ∉ items.map Item.id → r.status = "deleted") := by
  refine ⟨fun r hr => markAllRecordsAsDeleted_status hr, ?_⟩
  intro r hr hnm
  exact markAllRecordsAsDeleted_status
    (runWorkers_stable env items (markAllRecordsAsDeleted s) fs r hr hnm)

/-- Witness for C6's theorem: after a run whose feed contains only item "B",
the record for identifier "A" is still `deleted`. -/
theorem run_keeps_absent_deleted_witness :
    Product.status { uniqueCode := "A", price := 500, mpn := "m",
                     status := "deleted" } = "deleted" :=
  (run_keeps_absent_deleted cleanEnv [recA] [] [itemB]).2
    { uniqueCode := "A", price := 500, mpn := "m", status := "deleted" }
    (by decide) (by decide)

end MBSync
